import Mathlib

/-!
Verification of the LINE/Dify relay service (a FastAPI application).

This file gives a shallow embedding, in Lean 4, of the pure core of
src/app/main.py: the LINE signature check, the outbound text truncation,
the SSE noise filters, the streaming-answer aggregation loop of
dify_call_agent_streaming, the diagnostic ring-buffer appends, and the
webhook dispatch logic, followed by theorems about these definitions.

Modelling conventions:
  - Python strings are modelled as lists of characters (Str), so that
    len / slicing / strip map to List.length / take / dropWhile-rdropWhile.
    Python str.strip() with no argument strips whitespace; we model the
    ASCII whitespace characters, which is what the program's data uses.
    Python c.islower() is modelled as Char.isLower (ASCII range), again
    matching the program's ASCII event-name vocabulary.
  - Decoded JSON event records are modelled by the structure Obj whose
    fields are the string fields the code reads (absent key or JSON null
    both map to none).
  - Wall-clock time is modelled by a Nat timestamp attached to every
    stream line; the two deadlines of the aggregator are absolute Nat
    parameters, mirroring no_text_deadline / overall_deadline.
  - Network and logging side effects (requests.post, logging, the
    _sse_tail_add / _sse_raw_add diagnostic appends inside the loop) do
    not affect the returned answer and are dropped from the pure
    aggregation model; the ring-buffer operations themselves are
    modelled separately as pure functions on lists.
-/

set_option maxHeartbeats 1000000
set_option maxRecDepth 16000

namespace LineDify

/-- Python strings as lists of characters. -/
abbrev Str := List Char

/-- ASCII whitespace recognised by Python str.strip / rstrip. -/
def pySpace (c : Char) : Bool :=
  c == ' ' || c == '\t' || c == '\n' || c == '\r' || c == '\x0b' || c == '\x0c'

/-- Python s.lstrip(): drop leading whitespace. -/
def lstrip (s : Str) : Str := s.dropWhile pySpace

/-- Python s.rstrip(): drop trailing whitespace. -/
def rstrip (s : Str) : Str := s.rdropWhile pySpace

/-- Python s.strip(): drop whitespace at both ends. -/
def strip (s : Str) : Str := lstrip (rstrip s)

/-- Python (x or "") for an optional string: None becomes the empty string. -/
def optStr (o : Option Str) : Str := o.getD []

/-- Python (a or b) for strings: the empty string is falsy. -/
def pyOr (a b : Str) : Str := if a = [] then b else a

/-- Hex digit test used by the UUID regular expression. -/
def isHexDigit (c : Char) : Bool :=
  c.isDigit || (decide ('a' ≤ c) && decide (c ≤ 'f')) || (decide ('A' ≤ c) && decide (c ≤ 'F'))

/-- UUID_RE.match on an (already stripped) string: 8-4-4-4-12 hex groups
separated by dashes, 36 characters in total. -/
def uuidMatch (s : Str) : Bool :=
  s.length == 36 &&
    (List.range 36).all (fun i =>
      if i = 8 ∨ i = 13 ∨ i = 18 ∨ i = 23 then s.getD i ' ' == '-'
      else isHexDigit (s.getD i ' '))

/-- LINE_MAX_CHARS (default configuration value). -/
def LINE_MAX_CHARS : Nat := 800

/-- BUSY_TEXT (default configuration value). -/
def BUSY_TEXT : Str := "AI 服務忙碌中，請稍後再試".toList

/-- ACK_TEXT (default configuration value). -/
def ACK_TEXT : Str := "收到，我查一下（約 10 秒）。".toList

/-- The fixed truncation marker suffix appended by _truncate_for_line. -/
def TRUNC_SUFFIX : Str := "\n（內容過長已截斷）".toList

/-- _truncate_for_line from src/app/main.py: strip, return unchanged when
within budget, otherwise cut to leave room for the marker, rstrip at the
cut and append the marker; when even the marker does not fit, return a
bare prefix of length max_chars. -/
def _truncate_for_line (text : Str) (max_chars : Nat) : Str :=
  let t := strip text
  if t.length ≤ max_chars then t
  else if max_chars ≤ TRUNC_SUFFIX.length then t.take max_chars
  else rstrip (t.take (max_chars - TRUNC_SUFFIX.length)) ++ TRUNC_SUFFIX

/-- hmac.compare_digest: constant-time comparison, equality as a value. -/
def compareDigest (a b : Str) : Bool := a == b

/-- verify_line_signature from src/app/main.py, with the composition
base64encode(hmacSha256(secret, body)) abstracted as the function
parameter expectedOf (the code obtains it from the hmac / base64
libraries). A missing (None) or empty secret or signature is falsy in
Python and short-circuits to False. -/
def verify_line_signature (expectedOf : Str → Str → Str)
    (secret : Option Str) (body : Str) (signature : Option Str) : Bool :=
  if optStr signature = [] ∨ optStr secret = [] then false
  else compareDigest (expectedOf (optStr secret) body) (optStr signature)

/-- IGNORE_EVENTS from src/app/main.py. -/
def IGNORE_EVENTS : List Str :=
  ["workflow_started".toList, "node_started".toList, "node_finished".toList,
   "agent_log".toList, "tool_started".toList, "tool_finished".toList,
   "retriever_started".toList, "retriever_finished".toList]

/-- END_EVENTS from src/app/main.py. -/
def END_EVENTS : List Str :=
  ["message_end".toList, "agent_end".toList, "workflow_finished".toList]

/-- BAD_LITERALS from src/app/main.py. -/
def BAD_LITERALS : List Str :=
  ["agent_message".toList, "agent_thought".toList, "agent_log".toList,
   "message".toList, "message_delta".toList, "workflow_started".toList,
   "workflow_finished".toList, "node_started".toList, "node_finished".toList,
   "tool_started".toList, "tool_finished".toList,
   "retriever_started".toList, "retriever_finished".toList]

/-- The event-name literals the aggregator compares against. -/
def ERROR_EVT : Str := "error".toList

def AGENT_THOUGHT_EVT : Str := "agent_thought".toList

def AGENT_MESSAGE_EVT : Str := "agent_message".toList

def MESSAGE_END_EVT : Str := "message_end".toList

/-- _looks_bad_text from src/app/main.py: strip, then reject empty text,
known internal literals, UUID-shaped text, and short all-lowercase
snake_case-looking text. -/
def _looks_bad_text (s : Str) : Bool :=
  let t := strip s
  if t = [] then true
  else if t ∈ BAD_LITERALS then true
  else if uuidMatch t then true
  else if t.length ≤ 30 ∧ (t.all fun c => c.isLower || c == '_') = true ∧ '_' ∈ t then true
  else false

/-- The nested "data" sub-record of a decoded stream event: only the four
answer-candidate fields are read from it. -/
structure DataObj where
  answer : Option Str
  delta : Option Str
  text : Option Str
  content : Option Str
deriving DecidableEq, Repr

/-- A decoded JSON stream event record, restricted to the fields
src/app/main.py reads: event, thought, tool, the four answer-candidate
fields, and the nested data sub-record. -/
structure Obj where
  event : Option Str
  thought : Option Str
  tool : Option Str
  answer : Option Str
  delta : Option Str
  text : Option Str
  content : Option Str
  data : Option DataObj
deriving DecidableEq, Repr

/-- Replace the event field of a record (obj["event"] = event_name). -/
def withEvent (o : Obj) (e : Str) : Obj :=
  ⟨some e, o.thought, o.tool, o.answer, o.delta, o.text, o.content, o.data⟩

/-- One candidate field inside _pick_answer_fields: a string value is
stripped and kept when non-empty. -/
def stripField (v : Option Str) : List Str :=
  match v with
  | some s => let t := strip s; if t = [] then [] else [t]
  | none => []

/-- _pick_answer_fields from src/app/main.py, applied to the four fields
answer / delta / text / content in that order. -/
def _pick_answer_fields (answer delta text content : Option Str) : List Str :=
  stripField answer ++ stripField delta ++ stripField text ++ stripField content

/-- The first candidate not rejected by _looks_bad_text (the for-loop at
the end of _extract_answer); empty string when none qualifies. -/
def firstGoodCandidate : List Str → Str
  | [] => []
  | s :: rest => if _looks_bad_text s then firstGoodCandidate rest else s

/-- _extract_answer from src/app/main.py. -/
def _extract_answer (o : Obj) : Str :=
  let event := strip (optStr o.event)
  if event ∈ IGNORE_EVENTS then []
  else if event = ERROR_EVT then []
  else
    let candidates :=
      _pick_answer_fields o.answer o.delta o.text o.content ++
        (match o.data with
         | some d => _pick_answer_fields d.answer d.delta d.text d.content
         | none => [])
    firstGoodCandidate candidates

/-- _is_good_final_thought from src/app/main.py: an agent_thought event
whose stripped thought is non-empty, not UUID-shaped, carries no tool
marker, and has at least 10 characters. -/
def _is_good_final_thought (o : Obj) : Bool :=
  if strip (optStr o.event) ≠ AGENT_THOUGHT_EVT then false
  else
    let thought := strip (optStr o.thought)
    if thought = [] then false
    else if uuidMatch thought then false
    else if strip (optStr o.tool) ≠ [] then false
    else if thought.length < 10 then false
    else true

/-- The payload of a data: line, as seen after json.loads: the literal
DONE marker, a decoded dict, or anything that yields no record (invalid
JSON, a non-dict JSON value, or an empty payload — all three make
_parse_sse_block return None). -/
inductive DataPayload where
  | doneTok : DataPayload
  | ojson : Obj → DataPayload
  | badData : DataPayload
deriving DecidableEq, Repr

/-- A non-blank line of an SSE block, classified by its stripped prefix. -/
inductive Content where
  | eventLine : Str → Content
  | dataLine : DataPayload → Content
  | otherLine : Content
deriving DecidableEq, Repr

/-- _parse_sse_block from src/app/main.py: scan the block lines, keeping
the last event: name (falling back to the previous block's name) and the
last data: payload; return the decoded record (with the event name filled
in when the record has none) together with the event name to carry over. -/
def _parse_sse_block (lines : List Content) (last_event_line : Str) :
    Option Obj × Str :=
  let scan := lines.foldl
    (fun (acc : Str × Option DataPayload) c =>
      match c with
      | .eventLine n => (n, acc.2)
      | .dataLine d => (acc.1, some d)
      | .otherLine => acc)
    (last_event_line, none)
  let event_name := scan.1
  match scan.2 with
  | none => (none, event_name)
  | some .doneTok => (none, event_name)
  | some .badData => (none, event_name)
  | some (.ojson o) =>
      if o.event = none ∧ event_name ≠ [] then (some (withEvent o event_name), event_name)
      else (some o, event_name)

/-- One line as produced by r.iter_lines: a None keep-alive, a blank
line (ends the current SSE block), or a non-blank content line. -/
inductive LineEvt where
  | noneL : LineEvt
  | blankL : LineEvt
  | contentL : Content → LineEvt
deriving DecidableEq, Repr

/-- The mutable local state of dify_call_agent_streaming's read loop. -/
structure AggSt where
  parts : List Str
  got_any_answer : Bool
  last_good_thought : Str
  last_event_line : Str
  block : List Content
deriving DecidableEq, Repr

/-- The loop state at aggregation start. -/
def initSt : AggSt := ⟨[], false, [], [], []⟩

def setBlockEvt (st : AggSt) (b : List Content) (le : Str) : AggSt :=
  ⟨st.parts, st.got_any_answer, st.last_good_thought, le, b⟩

def addBlock (st : AggSt) (c : Content) : AggSt :=
  ⟨st.parts, st.got_any_answer, st.last_good_thought, st.last_event_line, st.block ++ [c]⟩

def addPart (st : AggSt) (a : Str) : AggSt :=
  ⟨st.parts ++ [a], true, st.last_good_thought, st.last_event_line, st.block⟩

def setThought (st : AggSt) (t : Str) : AggSt :=
  ⟨st.parts, st.got_any_answer, t, st.last_event_line, st.block⟩

/-- isinstance(event, str) and event in IGNORE_EVENTS, on the raw event
field. -/
def eventIgnorable : Option Str → Bool
  | some s => decide (s ∈ IGNORE_EVENTS)
  | none => false

/-- isinstance(event, str) and event in END_EVENTS, on the raw event
field. -/
def eventIsEnd : Option Str → Bool
  | some s => decide (s ∈ END_EVENTS)
  | none => false

/-- The straight-line body run on a decoded record inside the main loop:
record a good final thought, then append the extracted answer unless the
event is in the ignorable set. -/
def processObj (st : AggSt) (o : Obj) : AggSt :=
  let st1 := if _is_good_final_thought o then setThought st (strip (optStr o.thought)) else st
  let ans := _extract_answer o
  if eventIgnorable o.event then st1
  else if ans ≠ [] then addPart st1 ans
  else st1

/-- The same body as run on the trailing block at stream EOF (the code
there has no ignorable-event guard around the append). -/
def processObjEof (st : AggSt) (o : Obj) : AggSt :=
  let st1 := if _is_good_final_thought o then setThought st (strip (optStr o.thought)) else st
  let ans := _extract_answer o
  if ans ≠ [] then addPart st1 ans
  else st1

/-- The common return construction: join the collected parts, fall back
to the last good thought when the joined text strips to empty, sanitize,
and fall back to BUSY_TEXT when nothing usable remains. -/
def finishAnswer (parts : List Str) (thought : Str) : Str :=
  let final := strip parts.flatten
  let final2 := if final = [] ∧ thought ≠ [] then thought else final
  if final2 = [] then BUSY_TEXT else _truncate_for_line final2 LINE_MAX_CHARS

/-- The idle-deadline poll: with no accepted token yet and the idle
deadline passed, return BUSY_TEXT; otherwise continue with k. -/
def noTextCheck (nd : Nat) (st : AggSt) (now : Nat) (k : AggSt ⊕ Str) : AggSt ⊕ Str :=
  if st.got_any_answer = false ∧ nd < now then Sum.inr BUSY_TEXT else k

/-- One iteration of the read loop of dify_call_agent_streaming on a line
arriving at wall-clock time now; Sum.inr r means the loop returned r. -/
def stepLine (nd od : Nat) (st : AggSt) (now : Nat) (l : LineEvt) : AggSt ⊕ Str :=
  if od < now then Sum.inr (finishAnswer st.parts st.last_good_thought)
  else
    match l with
    | .noneL => Sum.inl st
    | .blankL =>
      if st.block = [] then noTextCheck nd st now (Sum.inl st)
      else
        let pr := _parse_sse_block st.block st.last_event_line
        let st2 := setBlockEvt st [] pr.2
        match pr.1 with
        | none => Sum.inl st2
        | some o =>
          if o.event = some ERROR_EVT then Sum.inr BUSY_TEXT
          else
            let st3 := processObj st2 o
            if eventIsEnd o.event then
              Sum.inr (finishAnswer st3.parts st3.last_good_thought)
            else noTextCheck nd st3 now (Sum.inl st3)
    | .contentL c =>
      let st2 := addBlock st c
      noTextCheck nd st2 now (Sum.inl st2)

/-- Stream EOF: parse and process any unterminated trailing block, then
build the final answer. -/
def finishEof (st : AggSt) : Str :=
  let stF :=
    if st.block = [] then st
    else
      match (_parse_sse_block st.block st.last_event_line).1 with
      | none => st
      | some o => processObjEof st o
  finishAnswer stF.parts stF.last_good_thought

/-- The read loop of dify_call_agent_streaming over a timed line stream. -/
def aggLoop (nd od : Nat) : AggSt → List (Nat × LineEvt) → Str
  | st, [] => finishEof st
  | st, (t, l) :: rest =>
    match stepLine nd od st t l with
    | Sum.inl st2 => aggLoop nd od st2 rest
    | Sum.inr r => r

/-- dify_call_agent_streaming from src/app/main.py, modelled from the
point where the HTTP 200 streaming response is being consumed: the input
is the timed sequence of lines of the response body, nd and od are the
absolute no_text_deadline and overall_deadline. -/
def dify_call_agent_streaming (nd od : Nat) (input : List (Nat × LineEvt)) : Str :=
  aggLoop nd od initSt input

/-- SSE_TAIL_MAX from src/app/main.py. -/
def SSE_TAIL_MAX : Nat := 80

/-- SSE_RAW_MAX from src/app/main.py. -/
def SSE_RAW_MAX : Nat := 50

/-- _sse_tail_add from src/app/main.py: append, then delete from the
front down to the capacity. -/
def _sse_tail_add {α : Type} (buf : List α) (item : α) : List α :=
  let b := buf ++ [item]
  if SSE_TAIL_MAX < b.length then b.drop (b.length - SSE_TAIL_MAX) else b

/-- _sse_raw_add from src/app/main.py: append, then delete from the
front down to the capacity. -/
def _sse_raw_add {α : Type} (buf : List α) (obj : α) : List α :=
  let b := buf ++ [obj]
  if SSE_RAW_MAX < b.length then b.drop (b.length - SSE_RAW_MAX) else b

/-- One inbound LINE webhook event, restricted to the fields read by
line_webhook: event type, message type and text, reply token, and the
three source identifiers. -/
structure LineMsgEvent where
  etype : Str
  mtype : Str
  mtext : Str
  replyToken : Str
  userId : Option Str
  groupId : Option Str
  roomId : Option Str
deriving DecidableEq, Repr

/-- _extract_push_to_id from src/app/main.py: userId or groupId or
roomId or "" (the Python or-chain, where None and "" are falsy). -/
def _extract_push_to_id (userId groupId roomId : Option Str) : Str :=
  pyOr (optStr userId) (pyOr (optStr groupId) (optStr roomId))

/-- An outbound send attempt: a reply POST or a push POST. -/
inductive Send where
  | reply : Str → Str → Send
  | push : Str → Str → Send
deriving DecidableEq, Repr

/-- The text payload carried by a send attempt. -/
def sendText : Send → Str
  | .reply _ t => t
  | .push _ t => t

/-- line_reply from src/app/main.py as the list of HTTP attempts it
makes: nothing without an access token or reply token, otherwise one
reply POST with the truncated text. -/
def line_reply (hasToken : Bool) (reply_token : Str) (text : Str) : List Send :=
  if hasToken = false ∨ reply_token = [] then []
  else [Send.reply reply_token (_truncate_for_line text LINE_MAX_CHARS)]

/-- line_push from src/app/main.py as the list of HTTP attempts it
makes. -/
def line_push (hasToken : Bool) (to_id : Str) (text : Str) : List Send :=
  if hasToken = false ∨ to_id = [] then []
  else [Send.push to_id (_truncate_for_line text LINE_MAX_CHARS)]

/-- background_ackpush from src/app/main.py: push the aggregated answer,
with BUSY_TEXT replacing a falsy answer. -/
def background_ackpush (hasToken : Bool) (push_to : Str) (ans : Str) : List Send :=
  line_push hasToken push_to (pyOr ans BUSY_TEXT)

/-- background_replyonce from src/app/main.py: reply with the aggregated
answer, with BUSY_TEXT replacing a falsy answer. -/
def background_replyonce (hasToken : Bool) (reply_token : Str) (ans : Str) : List Send :=
  line_reply hasToken reply_token (pyOr ans BUSY_TEXT)

def MESSAGE_T : Str := "message".toList

def TEXT_T : Str := "text".toList

def REPLY_ONCE_MODE : Str := "reply_once".toList

/-- The per-event dispatch of line_webhook from src/app/main.py, as the
list of outbound send attempts the event gives rise to (including those
of the spawned background worker, whose aggregated answer is ans). -/
def handle_line_event (mode : Str) (hasToken : Bool) (ev : LineMsgEvent) (ans : Str) :
    List Send :=
  if ev.etype ≠ MESSAGE_T then []
  else if ev.mtype ≠ TEXT_T then []
  else if strip ev.mtext = [] then []
  else
    let push_to := _extract_push_to_id ev.userId ev.groupId ev.roomId
    if mode = REPLY_ONCE_MODE then
      if ev.replyToken ≠ [] then background_replyonce hasToken ev.replyToken ans else []
    else
      (if ev.replyToken ≠ [] then line_reply hasToken ev.replyToken ACK_TEXT else []) ++
        (if push_to ≠ [] then background_ackpush hasToken push_to ans else [])

end LineDify

namespace LineDify

/-! ### Basic facts about the Python string model -/

lemma strip_nil : strip [] = [] := rfl

lemma dropWhile_cons_head {p : Char → Bool} : ∀ {l : Str} {c : Char} {t : Str},
    l.dropWhile p = c :: t → p c = false := by
  intro l
  induction l with
  | nil => intro c t h; simp [List.dropWhile] at h
  | cons a l ih =>
    intro c t h
    rw [List.dropWhile_cons] at h
    by_cases hp : p a
    · rw [if_pos hp] at h; exact ih h
    · rw [if_neg hp] at h
      cases h
      simpa using hp

lemma strip_head_not {s : Str} {c : Char} {t : Str} (h : strip s = c :: t) :
    pySpace c = false := dropWhile_cons_head h

lemma strip_reverse_head {s : Str} (h : strip s ≠ []) :
    ∃ c t, (strip s).reverse = c :: t ∧ pySpace c = false := by
  have hu : (rstrip s).takeWhile pySpace ++ strip s = rstrip s :=
    List.takeWhile_append_dropWhile pySpace (rstrip s)
  have hrev : (rstrip s).reverse = List.dropWhile pySpace s.reverse := by
    show (List.rdropWhile pySpace s).reverse = _
    rw [List.rdropWhile]
    exact List.reverse_reverse _
  rcases hc : (strip s).reverse with _ | ⟨c, t⟩
  · exact absurd (by simpa using hc) h
  · refine ⟨c, t, rfl, ?_⟩
    have h2 : (strip s).reverse ++ ((rstrip s).takeWhile pySpace).reverse =
        List.dropWhile pySpace s.reverse := by
      rw [← hrev, ← List.reverse_append, hu]
    have h3 : List.dropWhile pySpace s.reverse =
        c :: (t ++ ((rstrip s).takeWhile pySpace).reverse) := by
      rw [← h2, hc, List.cons_append]
    exact dropWhile_cons_head h3

lemma rstrip_append_strip (l : Str) {b : Str} (hb : strip b ≠ []) :
    rstrip (l ++ strip b) = l ++ strip b := by
  obtain ⟨c, t, hrev, hc⟩ := strip_reverse_head hb
  show ((l ++ strip b).reverse.dropWhile pySpace).reverse = l ++ strip b
  rw [List.reverse_append, hrev, List.cons_append, List.dropWhile_cons, if_neg (by simp [hc]),
    ← List.cons_append, ← hrev, ← List.reverse_append, List.reverse_reverse]

lemma lstrip_cons_not {c : Char} {t : Str} (h : pySpace c = false) :
    lstrip (c :: t) = c :: t := by
  simp [lstrip, List.dropWhile_cons, h]

lemma lstrip_append_strip {b : Str} (hb : strip b ≠ []) (l : Str) :
    lstrip (strip b ++ l) = strip b ++ l := by
  rcases he : strip b with _ | ⟨c, t⟩
  · exact absurd he hb
  · have hc : pySpace c = false := strip_head_not he
    rw [List.cons_append]
    exact lstrip_cons_not hc

lemma strip_append_strip {a b : Str} (ha : strip a ≠ []) (hb : strip b ≠ []) :
    strip (strip a ++ strip b) = strip a ++ strip b := by
  show lstrip (rstrip (strip a ++ strip b)) = strip a ++ strip b
  rw [rstrip_append_strip (strip a) hb]
  exact lstrip_append_strip ha _

lemma strip_strip (s : Str) : strip (strip s) = strip s := by
  by_cases h : strip s = []
  · rw [h]; rfl
  · show lstrip (rstrip (strip s)) = strip s
    have h1 : rstrip ([] ++ strip s) = [] ++ strip s := rstrip_append_strip [] h
    rw [List.nil_append] at h1
    rw [h1]
    rcases he : strip s with _ | ⟨c, t⟩
    · exact absurd he h
    · exact lstrip_cons_not (strip_head_not he)

lemma looksBad_strip (s : Str) :
    _looks_bad_text (strip s) = _looks_bad_text s := by
  simp only [_looks_bad_text, strip_strip]

lemma looksBad_false_strip_ne {s : Str} (h : _looks_bad_text s = false) :
    strip s ≠ [] := by
  intro hn
  simp only [_looks_bad_text, hn] at h
  exact absurd h (by simp)

lemma strip_ne_of_mem {c : Char} {l : Str} (hc : c ∈ l) (h : pySpace c = false) :
    strip l ≠ [] := by
  intro hnil
  have hall : ∀ x ∈ rstrip l, pySpace x = true := List.dropWhile_eq_nil_iff.mp hnil
  have hmem : c ∈ rstrip l := by
    have hrev : c ∈ l.reverse := List.mem_reverse.mpr hc
    rw [← List.takeWhile_append_dropWhile pySpace l.reverse] at hrev
    rcases List.mem_append.mp hrev with h1 | h2
    · exact absurd (List.mem_takeWhile_imp h1) (by simp [h])
    · exact List.mem_reverse.mpr h2
  rw [hall c hmem] at h
  simp at h

end LineDify

namespace LineDify

/-! ### Facts about _truncate_for_line -/

lemma truncate_of_le {s : Str} {m : Nat} (h : (strip s).length ≤ m) :
    _truncate_for_line s m = strip s := by
  simp only [_truncate_for_line, if_pos h]

lemma rstrip_length_le (l : Str) : (rstrip l).length ≤ l.length :=
  List.IsPrefix.length_le (List.rdropWhile_prefix pySpace l)

lemma strip_truncate_ne {s : Str} {m : Nat} (h : strip s ≠ [])
    (hm : TRUNC_SUFFIX.length < m) : strip (_truncate_for_line s m) ≠ [] := by
  by_cases hl : (strip s).length ≤ m
  · rw [truncate_of_le hl, strip_strip]; exact h
  · have hnot : ¬ m ≤ TRUNC_SUFFIX.length := by omega
    simp only [_truncate_for_line, if_neg hl, if_neg hnot]
    have hmem : '）' ∈ rstrip ((strip s).take (m - TRUNC_SUFFIX.length)) ++ TRUNC_SUFFIX :=
      List.mem_append.mpr (Or.inr (by decide))
    exact strip_ne_of_mem hmem (by decide)

/-- C10: the sanitizer never exceeds the budget. It holds for every input
text and every maximum; in the degenerate case where the maximum is
smaller than the truncation marker, the output is a bare prefix of the
trimmed text with no marker (List.take of the stripped input). -/
theorem c10_truncate_length_bound : ∀ (t : Str) (m : Nat),
    (_truncate_for_line t m).length ≤ m ∧
    (m < TRUNC_SUFFIX.length → _truncate_for_line t m = (strip t).take m) := by
  intro t m
  constructor
  · by_cases h1 : (strip t).length ≤ m
    · rw [truncate_of_le h1]; exact h1
    · by_cases h2 : m ≤ TRUNC_SUFFIX.length
      · simp only [_truncate_for_line, if_neg h1, if_pos h2]
        simp [List.length_take]
      · have h2' : ¬ m ≤ TRUNC_SUFFIX.length := h2
        simp only [_truncate_for_line, if_neg h1, if_neg h2']
        rw [List.length_append]
        have hr : (rstrip ((strip t).take (m - TRUNC_SUFFIX.length))).length ≤
            m - TRUNC_SUFFIX.length := by
          refine le_trans (rstrip_length_le _) ?_
          simp [List.length_take]
        omega
  · intro hm
    by_cases h1 : (strip t).length ≤ m
    · rw [truncate_of_le h1]
      exact (List.take_of_length_le h1).symm
    · simp only [_truncate_for_line, if_neg h1, if_pos (le_of_lt hm)]

/-- C10 witness: evaluation at a concrete text and a degenerate maximum. -/
theorem c10_truncate_length_bound_witness :
    (_truncate_for_line ("hello there".toList) 3).length ≤ 3 ∧
    (3 < TRUNC_SUFFIX.length →
      _truncate_for_line ("hello there".toList) 3 = (strip ("hello there".toList)).take 3) :=
  c10_truncate_length_bound ("hello there".toList) 3

/-- C7 counterexample: with the configured maximum 800, a trimmed text of
length 801 with a space just before the cut point produces an output of
length 799, not 800: the rstrip at the cut point makes the output
strictly shorter than the maximum, refuting the claimed exact equality. -/
theorem c7_counterexample_length_not_exact :
    LINE_MAX_CHARS <
        (strip (List.replicate 789 'a' ++ [' '] ++ List.replicate 11 'b')).length ∧
    ¬ ((_truncate_for_line (List.replicate 789 'a' ++ [' '] ++ List.replicate 11 'b')
        LINE_MAX_CHARS).length = LINE_MAX_CHARS) := by
  constructor
  · decide
  · decide

/-- C7 (amended): for trimmed text longer than the maximum, when the
maximum leaves room for the marker, the output is at most the maximum
long (exactly the maximum only when no whitespace is trimmed at the cut
point), ends with the fixed truncation marker, and the part of the
output before the marker is a prefix of the trimmed text. -/
theorem c7_truncation_amended : ∀ (t : Str) (m : Nat),
    TRUNC_SUFFIX.length < m → m < (strip t).length →
    ((_truncate_for_line t m).length ≤ m ∧
     _truncate_for_line t m =
       rstrip ((strip t).take (m - TRUNC_SUFFIX.length)) ++ TRUNC_SUFFIX ∧
     TRUNC_SUFFIX <:+ _truncate_for_line t m ∧
     rstrip ((strip t).take (m - TRUNC_SUFFIX.length)) <+: strip t) := by
  intro t m hm hlen
  have h1 : ¬ (strip t).length ≤ m := by omega
  have h2 : ¬ m ≤ TRUNC_SUFFIX.length := by omega
  have heq : _truncate_for_line t m =
      rstrip ((strip t).take (m - TRUNC_SUFFIX.length)) ++ TRUNC_SUFFIX := by
    simp only [_truncate_for_line, if_neg h1, if_neg h2]
  refine ⟨(c10_truncate_length_bound t m).1, heq, ?_, ?_⟩
  · rw [heq]; exact List.suffix_append _ _
  · exact List.IsPrefix.trans (List.rdropWhile_prefix pySpace _) (List.take_prefix _ _)

/-- C7 witness: amended statement evaluated at a 13-character text and
maximum 12. -/
theorem c7_truncation_amended_witness :
    (_truncate_for_line ("a bcdefghijkl".toList) 12).length ≤ 12 ∧
    _truncate_for_line ("a bcdefghijkl".toList) 12 =
      rstrip ((strip ("a bcdefghijkl".toList)).take (12 - TRUNC_SUFFIX.length)) ++ TRUNC_SUFFIX ∧
    TRUNC_SUFFIX <:+ _truncate_for_line ("a bcdefghijkl".toList) 12 ∧
    rstrip ((strip ("a bcdefghijkl".toList)).take (12 - TRUNC_SUFFIX.length)) <+:
      strip ("a bcdefghijkl".toList) :=
  c7_truncation_amended ("a bcdefghijkl".toList) 12 (by decide) (by decide)

end LineDify

namespace LineDify

/-- C5 counterexample: the candidate a_b is at most 30 characters, all
lowercase-or-underscore with an underscore, and is a single short token,
yet _looks_bad_text rejects it — the claimed single-short-token
exception does not exist in the code. -/
theorem c5_counterexample_short_token_rejected :
    ("a_b".toList).length ≤ 30 ∧
    (("a_b".toList).all fun c => c.isLower || c == '_') = true ∧
    '_' ∈ ("a_b".toList) ∧
    ¬ (_looks_bad_text ("a_b".toList) = false) := by decide

/-- C5 (amended): the snake_case heuristic of _looks_bad_text rejects
every candidate whose trimmed form is at most 30 characters, consists
only of lowercase letters and underscores, and contains an underscore —
unconditionally, with no single-token exception; candidates without an
underscore are never caught by this heuristic, so single short tokens
(for example one-character fragments) are accepted when they pass the
other filters. -/
theorem c5_snake_filter_amended : ∀ (s : Str),
    ((strip s).length ≤ 30 →
      ((strip s).all fun c => c.isLower || c == '_') = true →
      '_' ∈ strip s → _looks_bad_text s = true) ∧
    (strip s ≠ [] → strip s ∉ BAD_LITERALS → uuidMatch (strip s) = false →
      '_' ∉ strip s → _looks_bad_text s = false) := by
  intro s
  constructor
  · intro h1 h2 h3
    have hne : strip s ≠ [] := by
      intro hn; rw [hn] at h3; simp at h3
    simp only [_looks_bad_text]
    split_ifs <;> try rfl
    all_goals exact absurd (And.intro h1 (And.intro h2 h3)) (by assumption)
  · intro h1 h2 h3 h4
    simp only [_looks_bad_text]
    rw [if_neg h1, if_neg h2, if_neg (by simp [h3]),
      if_neg (fun g => h4 g.2.2)]

/-- C5 witness: the amended statement evaluated on a rejected snake_case
token and on an accepted underscore-free token. -/
theorem c5_snake_filter_amended_witness :
    _looks_bad_text ("ab_cd".toList) = true ∧ _looks_bad_text ("hi!".toList) = false :=
  ⟨(c5_snake_filter_amended ("ab_cd".toList)).1 (by decide) (by decide) (by decide),
   (c5_snake_filter_amended ("hi!".toList)).2 (by decide) (by decide) (by decide) (by decide)⟩

/-- C6: signature verification fails closed. It verifies exactly when
the configured secret is present and non-empty, the signature header is
present and non-empty, and the expected base64-encoded HMAC of the body
equals the supplied signature; in particular a missing or empty secret,
and a missing or empty signature header, never verify, for any body. -/
theorem c6_signature_fails_closed : ∀ (expectedOf : Str → Str → Str)
    (secret : Option Str) (body : Str) (signature : Option Str),
    (verify_line_signature expectedOf secret body signature = true ↔
      (optStr secret ≠ [] ∧ optStr signature ≠ [] ∧
        expectedOf (optStr secret) body = optStr signature)) ∧
    verify_line_signature expectedOf secret body (some []) = false ∧
    verify_line_signature expectedOf secret body none = false ∧
    verify_line_signature expectedOf none body signature = false ∧
    verify_line_signature expectedOf (some []) body signature = false := by
  intro f sec body sig
  refine ⟨?_, ?_, ?_, ?_, ?_⟩
  · simp only [verify_line_signature, compareDigest]
    split_ifs with h
    · simp only [Bool.false_eq_true, false_iff]
      rintro ⟨h1, h2, h3⟩
      rcases h with h | h
      · exact h2 h
      · exact h1 h
    · push_neg at h
      simp only [beq_iff_eq]
      constructor
      · intro he; exact ⟨h.2, h.1, he⟩
      · intro he; exact he.2.2
  · simp [verify_line_signature, optStr]
  · simp [verify_line_signature, optStr]
  · simp [verify_line_signature, optStr]
  · simp [verify_line_signature, optStr]

/-- C6 witness: the characterization evaluated at a concrete expected-MAC
function, secret, body and matching signature. -/
theorem c6_signature_fails_closed_witness :
    (verify_line_signature (fun s b => s ++ b) (some ("k".toList)) ("body".toList)
        (some ("kbody".toList)) = true ↔
      (optStr (some ("k".toList)) ≠ [] ∧ optStr (some ("kbody".toList)) ≠ [] ∧
        (fun (s b : Str) => s ++ b) (optStr (some ("k".toList))) ("body".toList) =
          optStr (some ("kbody".toList)))) ∧
    verify_line_signature (fun s b => s ++ b) (some ("k".toList)) ("body".toList)
        (some []) = false ∧
    verify_line_signature (fun s b => s ++ b) (some ("k".toList)) ("body".toList)
        none = false ∧
    verify_line_signature (fun s b => s ++ b) none ("body".toList)
        (some ("kbody".toList)) = false ∧
    verify_line_signature (fun s b => s ++ b) (some []) ("body".toList)
        (some ("kbody".toList)) = false :=
  c6_signature_fails_closed (fun s b => s ++ b) (some ("k".toList)) ("body".toList)
    (some ("kbody".toList))

/-! ### Ring buffers -/

lemma ringAdd_length {α : Type} (cap : Nat) (b : List α) :
    (if cap < b.length then b.drop (b.length - cap) else b).length = min b.length cap := by
  split_ifs with h
  · rw [List.length_drop]; omega
  · omega

lemma ringAdd_suffix {α : Type} (cap : Nat) (b : List α) :
    (if cap < b.length then b.drop (b.length - cap) else b) <:+ b := by
  split_ifs with h
  · exact List.drop_suffix _ _
  · exact List.suffix_refl _

/-- C9: both diagnostic ring buffers keep their capacity invariant:
after an append the length is at most the fixed capacity (80 for the
SSE tail buffer, 50 for the raw buffer), the result is a suffix of the
old buffer with the new item appended (so on overflow the oldest
entries are the ones removed and the remaining entries keep FIFO
order), the length is exactly min (old length + 1) capacity, and below
capacity no entry is evicted. -/
theorem c9_ring_buffer_capacity_fifo : ∀ (α : Type) (buf : List α) (item : α),
    ((_sse_tail_add buf item).length ≤ SSE_TAIL_MAX ∧
     (_sse_tail_add buf item).length = min (buf.length + 1) SSE_TAIL_MAX ∧
     _sse_tail_add buf item <:+ buf ++ [item] ∧
     (buf.length < SSE_TAIL_MAX → _sse_tail_add buf item = buf ++ [item])) ∧
    ((_sse_raw_add buf item).length ≤ SSE_RAW_MAX ∧
     (_sse_raw_add buf item).length = min (buf.length + 1) SSE_RAW_MAX ∧
     _sse_raw_add buf item <:+ buf ++ [item] ∧
     (buf.length < SSE_RAW_MAX → _sse_raw_add buf item = buf ++ [item])) := by
  intro α buf item
  have hb : (buf ++ [item]).length = buf.length + 1 := by
    rw [List.length_append, List.length_singleton]
  constructor
  · have hlen : (_sse_tail_add buf item).length = min (buf.length + 1) SSE_TAIL_MAX := by
      show (if SSE_TAIL_MAX < (buf ++ [item]).length then
          (buf ++ [item]).drop ((buf ++ [item]).length - SSE_TAIL_MAX)
        else buf ++ [item]).length = min (buf.length + 1) SSE_TAIL_MAX
      rw [ringAdd_length SSE_TAIL_MAX (buf ++ [item]), hb]
    refine ⟨by omega, hlen, ringAdd_suffix SSE_TAIL_MAX (buf ++ [item]), ?_⟩
    · intro hlt
      show (if SSE_TAIL_MAX < (buf ++ [item]).length then _ else _) = buf ++ [item]
      rw [if_neg (by omega)]
  · have hlen : (_sse_raw_add buf item).length = min (buf.length + 1) SSE_RAW_MAX := by
      show (if SSE_RAW_MAX < (buf ++ [item]).length then
          (buf ++ [item]).drop ((buf ++ [item]).length - SSE_RAW_MAX)
        else buf ++ [item]).length = min (buf.length + 1) SSE_RAW_MAX
      rw [ringAdd_length SSE_RAW_MAX (buf ++ [item]), hb]
    refine ⟨by omega, hlen, ringAdd_suffix SSE_RAW_MAX (buf ++ [item]), ?_⟩
    · intro hlt
      show (if SSE_RAW_MAX < (buf ++ [item]).length then _ else _) = buf ++ [item]
      rw [if_neg (by omega)]

/-- C9 witness: the buffer laws evaluated on a concrete small buffer. -/
theorem c9_ring_buffer_capacity_fifo_witness :
    (_sse_tail_add [1, 2, 3] 4).length ≤ SSE_TAIL_MAX ∧
    _sse_tail_add [1, 2, 3] 4 = [1, 2, 3, 4] ∧
    (_sse_raw_add [1, 2, 3] 4).length ≤ SSE_RAW_MAX ∧
    _sse_raw_add [1, 2, 3] 4 = [1, 2, 3, 4] :=
  ⟨(c9_ring_buffer_capacity_fifo Nat [1, 2, 3] 4).1.1,
   by simpa using (c9_ring_buffer_capacity_fifo Nat [1, 2, 3] 4).1.2.2.2 (by decide),
   (c9_ring_buffer_capacity_fifo Nat [1, 2, 3] 4).2.1,
   by simpa using (c9_ring_buffer_capacity_fifo Nat [1, 2, 3] 4).2.2.2.2 (by decide)⟩

end LineDify

namespace LineDify

/-! ### Facts about the aggregation loop -/

lemma strip_busy : strip BUSY_TEXT = BUSY_TEXT := by decide

lemma strip_busy_ne : strip BUSY_TEXT ≠ [] := by decide

lemma finishAnswer_strip_ne {parts : List Str} {th : Str} (hth : strip th = th) :
    strip (finishAnswer parts th) ≠ [] := by
  simp only [finishAnswer]
  by_cases h1 : strip parts.flatten = []
  · by_cases h2 : th = []
    · have hfin2 : (if strip parts.flatten = [] ∧ th ≠ [] then th else strip parts.flatten) =
          strip parts.flatten := if_neg (fun g => g.2 h2)
      rw [hfin2, if_pos h1]
      exact strip_busy_ne
    · have hfin2 : (if strip parts.flatten = [] ∧ th ≠ [] then th else strip parts.flatten) =
          th := if_pos (And.intro h1 h2)
      rw [hfin2, if_neg h2]
      apply strip_truncate_ne _ (by decide)
      rw [hth]; exact h2
  · have hfin2 : (if strip parts.flatten = [] ∧ th ≠ [] then th else strip parts.flatten) =
        strip parts.flatten := if_neg (fun g => h1 g.1)
    rw [hfin2, if_neg h1]
    apply strip_truncate_ne _ (by decide)
    rw [strip_strip]; exact h1

lemma stepLine_overall {nd od now : Nat} {st : AggSt} {l : LineEvt} (h : od < now) :
    stepLine nd od st now l = Sum.inr (finishAnswer st.parts st.last_good_thought) := by
  simp [stepLine, h]

lemma stepLine_noneL {nd od now : Nat} {st : AggSt} (h : ¬ od < now) :
    stepLine nd od st now LineEvt.noneL = Sum.inl st := by
  simp [stepLine, h]

lemma stepLine_contentL {nd od now : Nat} {st : AggSt} {c : Content} (h : ¬ od < now) :
    stepLine nd od st now (LineEvt.contentL c) =
      noTextCheck nd (addBlock st c) now (Sum.inl (addBlock st c)) := by
  simp [stepLine, h]

lemma stepLine_blank_empty {nd od now : Nat} {st : AggSt} (h : ¬ od < now)
    (hb : st.block = []) :
    stepLine nd od st now LineEvt.blankL = noTextCheck nd st now (Sum.inl st) := by
  simp [stepLine, h, hb]

lemma stepLine_blank_parse_none {nd od now : Nat} {st : AggSt} (h : ¬ od < now)
    (hb : ¬ st.block = [])
    (hp : (_parse_sse_block st.block st.last_event_line).1 = none) :
    stepLine nd od st now LineEvt.blankL =
      Sum.inl (setBlockEvt st [] (_parse_sse_block st.block st.last_event_line).2) := by
  simp [stepLine, h, hb, hp]

lemma stepLine_blank_parse_some {nd od now : Nat} {st : AggSt} {o : Obj} (h : ¬ od < now)
    (hb : ¬ st.block = [])
    (hp : (_parse_sse_block st.block st.last_event_line).1 = some o) :
    stepLine nd od st now LineEvt.blankL =
      (if o.event = some ERROR_EVT then Sum.inr BUSY_TEXT
       else
         if eventIsEnd o.event then
           Sum.inr (finishAnswer
             (processObj (setBlockEvt st [] (_parse_sse_block st.block st.last_event_line).2) o).parts
             (processObj (setBlockEvt st [] (_parse_sse_block st.block st.last_event_line).2) o).last_good_thought)
         else
           noTextCheck nd
             (processObj (setBlockEvt st [] (_parse_sse_block st.block st.last_event_line).2) o) now
             (Sum.inl (processObj (setBlockEvt st [] (_parse_sse_block st.block st.last_event_line).2) o))) := by
  simp [stepLine, h, hb, hp]

lemma processObj_th {st : AggSt} {o : Obj}
    (h : strip st.last_good_thought = st.last_good_thought) :
    strip (processObj st o).last_good_thought = (processObj st o).last_good_thought := by
  simp only [processObj]
  split_ifs <;> simp [addPart, setThought, strip_strip, h]

lemma processObjEof_th {st : AggSt} {o : Obj}
    (h : strip st.last_good_thought = st.last_good_thought) :
    strip (processObjEof st o).last_good_thought = (processObjEof st o).last_good_thought := by
  simp only [processObjEof]
  split_ifs <;> simp [addPart, setThought, strip_strip, h]

lemma stepLine_ok {nd od now : Nat} {st : AggSt} {l : LineEvt}
    (h : strip st.last_good_thought = st.last_good_thought) :
    Sum.elim (fun st2 : AggSt => strip st2.last_good_thought = st2.last_good_thought)
      (fun r : Str => strip r ≠ []) (stepLine nd od st now l) := by
  by_cases hod : od < now
  · rw [stepLine_overall hod]
    exact finishAnswer_strip_ne h
  · cases l with
    | noneL => rw [stepLine_noneL hod]; exact h
    | contentL c =>
      rw [stepLine_contentL hod]
      simp only [noTextCheck]
      split_ifs
      · exact strip_busy_ne
      · exact h
    | blankL =>
      by_cases hb : st.block = []
      · rw [stepLine_blank_empty hod hb]
        simp only [noTextCheck]
        split_ifs
        · exact strip_busy_ne
        · exact h
      · cases hp : (_parse_sse_block st.block st.last_event_line).1 with
        | none =>
          rw [stepLine_blank_parse_none hod hb hp]
          exact h
        | some o =>
          rw [stepLine_blank_parse_some hod hb hp]
          have h2 : strip (setBlockEvt st [] (_parse_sse_block st.block st.last_event_line).2).last_good_thought =
              (setBlockEvt st [] (_parse_sse_block st.block st.last_event_line).2).last_good_thought := h
          split_ifs
          · exact strip_busy_ne
          · exact finishAnswer_strip_ne (processObj_th h2)
          · simp only [noTextCheck]
            split_ifs
            · exact strip_busy_ne
            · exact processObj_th h2

lemma finishEof_strip_ne {st : AggSt}
    (h : strip st.last_good_thought = st.last_good_thought) :
    strip (finishEof st) ≠ [] := by
  simp only [finishEof]
  by_cases hb : st.block = []
  · rw [if_pos hb]
    exact finishAnswer_strip_ne h
  · rw [if_neg hb]
    cases hp : (_parse_sse_block st.block st.last_event_line).1 with
    | none => simp only [hp]; exact finishAnswer_strip_ne h
    | some o => simp only [hp]; exact finishAnswer_strip_ne (processObjEof_th h)

lemma aggLoop_strip_ne (nd od : Nat) : ∀ (input : List (Nat × LineEvt)) (st : AggSt),
    strip st.last_good_thought = st.last_good_thought →
    strip (aggLoop nd od st input) ≠ [] := by
  intro input
  induction input with
  | nil => intro st h; exact finishEof_strip_ne h
  | cons hd rest ih =>
    intro st h
    obtain ⟨t, l⟩ := hd
    have hok := @stepLine_ok nd od t st l h
    show strip (match stepLine nd od st t l with
      | Sum.inl st2 => aggLoop nd od st2 rest
      | Sum.inr r => r) ≠ []
    cases hstep : stepLine nd od st t l with
    | inl st2 =>
      rw [hstep] at hok
      exact ih st2 hok
    | inr r =>
      rw [hstep] at hok
      exact hok

lemma dify_strip_ne (nd od : Nat) (input : List (Nat × LineEvt)) :
    strip (dify_call_agent_streaming nd od input) ≠ [] :=
  aggLoop_strip_ne nd od input initSt rfl

end LineDify

namespace LineDify

lemma ignore_ne_error : ∀ x ∈ IGNORE_EVENTS, x ≠ ERROR_EVT := by decide

lemma ignore_not_end : ∀ x ∈ IGNORE_EVENTS, x ∉ END_EVENTS := by decide

lemma end_ne_error : ∀ x ∈ END_EVENTS, x ≠ ERROR_EVT := by decide

lemma processObj_got_ignorable {st : AggSt} {o : Obj}
    (hig : eventIgnorable o.event = true) :
    (processObj st o).got_any_answer = st.got_any_answer := by
  simp only [processObj, hig, if_true]
  split_ifs <;> simp [setThought]

/-- C4: an error event aborts the aggregation immediately with the fixed
busy text, discarding whatever token fragments (parts) were already
collected — the collected parts, the thought fallback and the
got-any-answer flag are all ignored on this path. -/
theorem c4_error_event_discards_parts :
    ∀ (nd od now : Nat) (parts : List Str) (gotv : Bool) (th le : Str)
      (bl : List Content) (o : Obj),
    now ≤ od → bl ≠ [] →
    (_parse_sse_block bl le).1 = some o → o.event = some ERROR_EVT →
    stepLine nd od ⟨parts, gotv, th, le, bl⟩ now LineEvt.blankL = Sum.inr BUSY_TEXT := by
  intro nd od now parts gotv th le bl o h1 h2 h3 h4
  rw [stepLine_blank_parse_some (not_lt.mpr h1) h2 h3, if_pos h4]

/-- C4 witness: a stream state with two collected fragments hits an
error-event block and returns BUSY_TEXT. -/
theorem c4_error_event_discards_parts_witness :
    stepLine 3 100 ⟨[['h', 'i'], ['y', 'o']], true, [], [],
        [Content.dataLine (DataPayload.ojson ⟨some ERROR_EVT, none, none, none, none, none, none, none⟩)]⟩
      5 LineEvt.blankL = Sum.inr BUSY_TEXT :=
  c4_error_event_discards_parts 3 100 5 [['h', 'i'], ['y', 'o']] true [] []
    [Content.dataLine (DataPayload.ojson ⟨some ERROR_EVT, none, none, none, none, none, none, none⟩)]
    ⟨some ERROR_EVT, none, none, none, none, none, none, none⟩
    (by decide) (by decide) (by decide) (by decide)

/-- C3: with no accepted token yet and the idle deadline passed, the
idle-deadline poll returns the fixed busy text regardless of any
collected fallback thought (th is arbitrary): at a blank line closing no
block, at a content line, and after a block holding a control
(lifecycle/ignorable) event — so control events do not avert the idle
fallback. The idle deadline nd is a fixed parameter set once at
aggregation start, never modified by the loop. -/
theorem c3_idle_deadline_returns_busy :
    ∀ (nd od now : Nat) (parts : List Str) (th le : Str) (bl : List Content)
      (c : Content) (o : Obj),
    now ≤ od → nd < now → bl ≠ [] →
    (_parse_sse_block bl le).1 = some o → eventIgnorable o.event = true →
    (stepLine nd od ⟨parts, false, th, le, []⟩ now LineEvt.blankL = Sum.inr BUSY_TEXT ∧
     stepLine nd od ⟨parts, false, th, le, []⟩ now (LineEvt.contentL c) = Sum.inr BUSY_TEXT ∧
     stepLine nd od ⟨parts, false, th, le, bl⟩ now LineEvt.blankL = Sum.inr BUSY_TEXT) := by
  intro nd od now parts th le bl c o h1 h2 hbl hp hig
  have hod : ¬ od < now := not_lt.mpr h1
  refine ⟨?_, ?_, ?_⟩
  · rw [stepLine_blank_empty hod rfl]
    simp [noTextCheck, h2]
  · rw [stepLine_contentL hod]
    simp [noTextCheck, addBlock, h2]
  · rw [stepLine_blank_parse_some hod hbl hp]
    have hne : ¬ o.event = some ERROR_EVT := by
      intro he
      rw [he] at hig
      simp only [eventIgnorable] at hig
      exact ignore_ne_error ERROR_EVT (of_decide_eq_true hig) rfl
    have hnend : ¬ eventIsEnd o.event = true := by
      cases hev : o.event with
      | none => simp [eventIsEnd]
      | some e =>
        rw [hev] at hig
        simp only [eventIgnorable] at hig
        simp only [eventIsEnd, decide_eq_true_eq]
        exact ignore_not_end e (of_decide_eq_true hig)
    rw [if_neg hne, if_neg hnend]
    have hgot := @processObj_got_ignorable
      (setBlockEvt ⟨parts, false, th, le, bl⟩ [] (_parse_sse_block bl le).2) o hig
    simp only [setBlockEvt] at hgot
    simp [noTextCheck, setBlockEvt, hgot, h2]

/-- C3 witness: idle deadline passed (nd = 3 < now = 5), no token yet, a
good fallback thought already collected, and a workflow_started control
event in flight: all three poll sites return BUSY_TEXT. -/
theorem c3_idle_deadline_returns_busy_witness :
    (stepLine 3 100 ⟨[], false, "a long collected thought".toList, [], []⟩ 5
        LineEvt.blankL = Sum.inr BUSY_TEXT ∧
     stepLine 3 100 ⟨[], false, "a long collected thought".toList, [], []⟩ 5
        (LineEvt.contentL Content.otherLine) = Sum.inr BUSY_TEXT ∧
     stepLine 3 100 ⟨[], false, "a long collected thought".toList, [],
        [Content.dataLine (DataPayload.ojson
          ⟨some ("workflow_started".toList), none, none, none, none, none, none, none⟩)]⟩ 5
        LineEvt.blankL = Sum.inr BUSY_TEXT) :=
  c3_idle_deadline_returns_busy 3 100 5 [] ("a long collected thought".toList) []
    [Content.dataLine (DataPayload.ojson
      ⟨some ("workflow_started".toList), none, none, none, none, none, none, none⟩)]
    Content.otherLine
    ⟨some ("workflow_started".toList), none, none, none, none, none, none, none⟩
    (by decide) (by decide) (by decide) (by decide) (by decide)

end LineDify

namespace LineDify

/-- C1: on a terminal event (message_end, agent_end, workflow_finished)
the loop stops and returns the finishing chain applied to the state
updated by the block (so to the parts and the most recently recorded
thought); the finishing chain is: the sanitized concatenation of the
accepted fragments when non-empty after trimming, else the sanitized
recorded fallback thought when non-empty, else the fixed busy text; and
an agent_thought event is recorded as a good fallback exactly when its
trimmed thought is non-empty, not UUID-shaped, at least 10 characters
long, and its tool field is empty after trimming. -/
theorem c1_terminal_event_fallback_chain :
    ∀ (nd od now : Nat) (parts : List Str) (gotv : Bool) (th le : Str)
      (bl : List Content) (o o2 : Obj) (e : Str) (parts2 : List Str) (th2 : Str),
    now ≤ od → bl ≠ [] →
    (_parse_sse_block bl le).1 = some o → o.event = some e → e ∈ END_EVENTS →
    (stepLine nd od ⟨parts, gotv, th, le, bl⟩ now LineEvt.blankL =
       Sum.inr (finishAnswer
         (processObj (setBlockEvt ⟨parts, gotv, th, le, bl⟩ []
            (_parse_sse_block bl le).2) o).parts
         (processObj (setBlockEvt ⟨parts, gotv, th, le, bl⟩ []
            (_parse_sse_block bl le).2) o).last_good_thought) ∧
     finishAnswer parts2 th2 =
       (if strip parts2.flatten ≠ [] then
          _truncate_for_line (strip parts2.flatten) LINE_MAX_CHARS
        else if th2 ≠ [] then _truncate_for_line th2 LINE_MAX_CHARS
        else BUSY_TEXT) ∧
     (_is_good_final_thought o2 = true ↔
       (strip (optStr o2.event) = AGENT_THOUGHT_EVT ∧ strip (optStr o2.thought) ≠ [] ∧
        uuidMatch (strip (optStr o2.thought)) = false ∧
        10 ≤ (strip (optStr o2.thought)).length ∧ strip (optStr o2.tool) = []))) := by
  intro nd od now parts gotv th le bl o o2 e parts2 th2 h1 hbl hp he hEnd
  refine ⟨?_, ?_, ?_⟩
  · rw [stepLine_blank_parse_some (not_lt.mpr h1) hbl hp]
    have hne : ¬ o.event = some ERROR_EVT := by
      rw [he]
      intro hc
      have hh : e = ERROR_EVT := by injection hc
      exact end_ne_error e hEnd hh
    have hend : eventIsEnd o.event = true := by
      rw [he]
      simp only [eventIsEnd, decide_eq_true_eq]
      exact hEnd
    rw [if_neg hne, if_pos hend]
  · simp only [finishAnswer]
    by_cases hf : strip parts2.flatten = []
    · by_cases hth2 : th2 = []
      · have e1 : (if strip parts2.flatten = [] ∧ th2 ≠ [] then th2
            else strip parts2.flatten) = strip parts2.flatten := if_neg (fun g => g.2 hth2)
        rw [e1, if_pos hf, if_neg (not_not_intro hf), if_neg (not_not_intro hth2)]
      · have e1 : (if strip parts2.flatten = [] ∧ th2 ≠ [] then th2
            else strip parts2.flatten) = th2 := if_pos (And.intro hf hth2)
        rw [e1, if_neg hth2, if_neg (not_not_intro hf), if_pos hth2]
    · have e1 : (if strip parts2.flatten = [] ∧ th2 ≠ [] then th2
          else strip parts2.flatten) = strip parts2.flatten := if_neg (fun g => hf g.1)
      rw [e1, if_neg hf, if_pos hf]
  · simp only [_is_good_final_thought]
    split_ifs with g1 g2 g3 g4 g5
    · simp only [Bool.false_eq_true, false_iff]
      rintro ⟨ha, _⟩; exact g1 ha
    · simp only [Bool.false_eq_true, false_iff]
      rintro ⟨_, hb, _⟩; exact hb g2
    · simp only [Bool.false_eq_true, false_iff]
      rintro ⟨_, _, hc, _⟩; rw [g3] at hc; exact absurd hc (by simp)
    · simp only [Bool.false_eq_true, false_iff]
      rintro ⟨_, _, _, _, hd⟩; exact g4 hd
    · simp only [Bool.false_eq_true, false_iff]
      rintro ⟨_, _, _, hl, _⟩; omega
    · constructor
      · intro _
        refine ⟨not_not.mp g1, g2, ?_, ?_, not_ne_iff.mp g4⟩
        · simpa using g3
        · omega
      · intro _; rfl

/-- C1 witness: the terminal-event behaviour evaluated on a concrete
state with one collected fragment and a message_end block. -/
theorem c1_terminal_event_fallback_chain_witness :
    (stepLine 3 100 ⟨[['h', 'i']], true, [], [],
        [Content.dataLine (DataPayload.ojson
          ⟨some MESSAGE_END_EVT, none, none, none, none, none, none, none⟩)]⟩ 5
        LineEvt.blankL =
       Sum.inr (finishAnswer
         (processObj (setBlockEvt ⟨[['h', 'i']], true, [], [],
            [Content.dataLine (DataPayload.ojson
              ⟨some MESSAGE_END_EVT, none, none, none, none, none, none, none⟩)]⟩ []
            (_parse_sse_block
              [Content.dataLine (DataPayload.ojson
                ⟨some MESSAGE_END_EVT, none, none, none, none, none, none, none⟩)] []).2)
           ⟨some MESSAGE_END_EVT, none, none, none, none, none, none, none⟩).parts
         (processObj (setBlockEvt ⟨[['h', 'i']], true, [], [],
            [Content.dataLine (DataPayload.ojson
              ⟨some MESSAGE_END_EVT, none, none, none, none, none, none, none⟩)]⟩ []
            (_parse_sse_block
              [Content.dataLine (DataPayload.ojson
                ⟨some MESSAGE_END_EVT, none, none, none, none, none, none, none⟩)] []).2)
           ⟨some MESSAGE_END_EVT, none, none, none, none, none, none, none⟩).last_good_thought) ∧
     finishAnswer [['h', 'i']] [] =
       (if strip ([['h', 'i']] : List Str).flatten ≠ [] then
          _truncate_for_line (strip ([['h', 'i']] : List Str).flatten) LINE_MAX_CHARS
        else if ([] : Str) ≠ [] then _truncate_for_line [] LINE_MAX_CHARS
        else BUSY_TEXT) ∧
     (_is_good_final_thought
         ⟨some MESSAGE_END_EVT, none, none, none, none, none, none, none⟩ = true ↔
       (strip (optStr (Obj.event
            ⟨some MESSAGE_END_EVT, none, none, none, none, none, none, none⟩)) =
          AGENT_THOUGHT_EVT ∧
        strip (optStr (Obj.thought
            ⟨some MESSAGE_END_EVT, none, none, none, none, none, none, none⟩)) ≠ [] ∧
        uuidMatch (strip (optStr (Obj.thought
            ⟨some MESSAGE_END_EVT, none, none, none, none, none, none, none⟩))) = false ∧
        10 ≤ (strip (optStr (Obj.thought
            ⟨some MESSAGE_END_EVT, none, none, none, none, none, none, none⟩))).length ∧
        strip (optStr (Obj.tool
            ⟨some MESSAGE_END_EVT, none, none, none, none, none, none, none⟩)) = []))) :=
  c1_terminal_event_fallback_chain 3 100 5 [['h', 'i']] true [] []
    [Content.dataLine (DataPayload.ojson
      ⟨some MESSAGE_END_EVT, none, none, none, none, none, none, none⟩)]
    ⟨some MESSAGE_END_EVT, none, none, none, none, none, none, none⟩
    ⟨some MESSAGE_END_EVT, none, none, none, none, none, none, none⟩
    MESSAGE_END_EVT [['h', 'i']] []
    (by decide) (by decide) (by decide) (by decide) (by decide)

end LineDify
namespace LineDify

lemma extract_msg_block {a : Str} (h : _looks_bad_text a = false) :
    _extract_answer ⟨some AGENT_MESSAGE_EVT, none, none, some a, none, none, none, none⟩ =
      strip a := by
  have hne : strip a ≠ [] := looksBad_false_strip_ne h
  have hev : strip (optStr (some AGENT_MESSAGE_EVT)) = AGENT_MESSAGE_EVT := by decide
  simp only [_extract_answer, hev]
  rw [if_neg (by decide : ¬ AGENT_MESSAGE_EVT ∈ IGNORE_EVENTS),
    if_neg (by decide : ¬ AGENT_MESSAGE_EVT = ERROR_EVT)]
  simp only [_pick_answer_fields, stripField]
  rw [if_neg hne]
  simp only [List.append_nil, List.nil_append, firstGoodCandidate]
  rw [looksBad_strip, h]
  simp

lemma msg_block_not_thought {a : Str} :
    _is_good_final_thought ⟨some AGENT_MESSAGE_EVT, none, none, some a, none, none, none, none⟩ =
      false := by
  simp only [_is_good_final_thought]
  rw [if_pos (by decide)]

lemma parse_single_data {o : Obj} (ho : o.event ≠ none) :
    _parse_sse_block [Content.dataLine (DataPayload.ojson o)] [] = (some o, []) := by
  simp only [_parse_sse_block, List.foldl]
  rw [if_neg (fun g => ho g.1)]

lemma stepLine_msg_block {nd od now : Nat} {parts : List Str} {gotv : Bool} {th a : Str}
    (hod : ¬ od < now) (hb : _looks_bad_text a = false) :
    stepLine nd od ⟨parts, gotv, th, [],
        [Content.dataLine (DataPayload.ojson
          ⟨some AGENT_MESSAGE_EVT, none, none, some a, none, none, none, none⟩)]⟩ now
      LineEvt.blankL = Sum.inl ⟨parts ++ [strip a], true, th, [], []⟩ := by
  have hne : strip a ≠ [] := looksBad_false_strip_ne hb
  have hpar : (_parse_sse_block [Content.dataLine (DataPayload.ojson
      ⟨some AGENT_MESSAGE_EVT, none, none, some a, none, none, none, none⟩)] []).1 =
      some ⟨some AGENT_MESSAGE_EVT, none, none, some a, none, none, none, none⟩ := by
    rw [parse_single_data (by simp)]
  rw [stepLine_blank_parse_some hod (by simp) hpar]
  rw [if_neg (by decide : ¬ (some AGENT_MESSAGE_EVT : Option Str) = some ERROR_EVT)]
  dsimp only
  rw [if_neg (by decide : ¬ eventIsEnd (some AGENT_MESSAGE_EVT) = true)]
  rw [parse_single_data (by simp :
    (⟨some AGENT_MESSAGE_EVT, none, none, some a, none, none, none, none⟩ : Obj).event ≠ none)]
  dsimp only
  simp only [setBlockEvt]
  simp only [processObj, msg_block_not_thought, extract_msg_block hb, Bool.false_eq_true,
    if_false]
  rw [if_neg (by decide : ¬ eventIgnorable (some AGENT_MESSAGE_EVT) = true), if_pos hne]
  simp [noTextCheck, addPart]

end LineDify

namespace LineDify

lemma stepLine_end_block {nd od now : Nat} {parts : List Str} {gotv : Bool} {th : Str}
    (hod : ¬ od < now) :
    stepLine nd od ⟨parts, gotv, th, [],
        [Content.dataLine (DataPayload.ojson
          ⟨some MESSAGE_END_EVT, none, none, none, none, none, none, none⟩)]⟩ now
      LineEvt.blankL = Sum.inr (finishAnswer parts th) := by
  have hpar : (_parse_sse_block [Content.dataLine (DataPayload.ojson
      ⟨some MESSAGE_END_EVT, none, none, none, none, none, none, none⟩)] []).1 =
      some ⟨some MESSAGE_END_EVT, none, none, none, none, none, none, none⟩ := by
    rw [parse_single_data (by simp)]
  rw [stepLine_blank_parse_some hod (by simp) hpar]
  rw [if_neg (by decide : ¬ (some MESSAGE_END_EVT : Option Str) = some ERROR_EVT)]
  dsimp only
  rw [if_pos (by decide : eventIsEnd (some MESSAGE_END_EVT) = true)]
  rw [parse_single_data (by simp :
    (⟨some MESSAGE_END_EVT, none, none, none, none, none, none, none⟩ : Obj).event ≠ none)]
  dsimp only
  simp only [setBlockEvt]
  simp only [processObj, Bool.false_eq_true, if_false]
  rw [if_neg (by decide : ¬ _is_good_final_thought
      ⟨some MESSAGE_END_EVT, none, none, none, none, none, none, none⟩ = true)]
  rw [if_neg (by decide : ¬ eventIgnorable (some MESSAGE_END_EVT) = true)]
  rw [if_neg (by simp [show _extract_answer
      ⟨some MESSAGE_END_EVT, none, none, none, none, none, none, none⟩ = [] by decide])]

lemma stepLine_content_nd {nd od now : Nat} {st : AggSt} {c : Content}
    (hod : ¬ od < now) (hnd : ¬ nd < now) :
    stepLine nd od st now (LineEvt.contentL c) = Sum.inl (addBlock st c) := by
  rw [stepLine_contentL hod]
  simp [noTextCheck, hnd]

lemma stepLine_content_got {nd od now : Nat} {st : AggSt} {c : Content}
    (hod : ¬ od < now) (hgot : st.got_any_answer = true) :
    stepLine nd od st now (LineEvt.contentL c) = Sum.inl (addBlock st c) := by
  rw [stepLine_contentL hod]
  simp [noTextCheck, addBlock, hgot]

lemma aggLoop_cons_inl {nd od : Nat} {st st2 : AggSt} {t : Nat} {l : LineEvt}
    {rest : List (Nat × LineEvt)} (h : stepLine nd od st t l = Sum.inl st2) :
    aggLoop nd od st ((t, l) :: rest) = aggLoop nd od st2 rest := by
  show (match stepLine nd od st t l with
    | Sum.inl s => aggLoop nd od s rest
    | Sum.inr r => r) = aggLoop nd od st2 rest
  rw [h]

lemma aggLoop_cons_inr {nd od : Nat} {st : AggSt} {t : Nat} {l : LineEvt} {r : Str}
    {rest : List (Nat × LineEvt)} (h : stepLine nd od st t l = Sum.inr r) :
    aggLoop nd od st ((t, l) :: rest) = r := by
  show (match stepLine nd od st t l with
    | Sum.inl s => aggLoop nd od s rest
    | Sum.inr r2 => r2) = r
  rw [h]

end LineDify

namespace LineDify

theorem c2_tokens_in_arrival_order :
    ∀ (nd od t1 t2 t3 t4 t5 t6 : Nat) (a b : Str),
    t1 ≤ nd → t1 ≤ od → t2 ≤ od → t3 ≤ od → t4 ≤ od → t5 ≤ od → t6 ≤ od →
    _looks_bad_text a = false → _looks_bad_text b = false →
    (strip a).length + (strip b).length ≤ LINE_MAX_CHARS →
    dify_call_agent_streaming nd od
      [(t1, LineEvt.contentL (Content.dataLine (DataPayload.ojson
          ⟨some AGENT_MESSAGE_EVT, none, none, some a, none, none, none, none⟩))),
       (t2, LineEvt.blankL),
       (t3, LineEvt.contentL (Content.dataLine (DataPayload.ojson
          ⟨some AGENT_MESSAGE_EVT, none, none, some b, none, none, none, none⟩))),
       (t4, LineEvt.blankL),
       (t5, LineEvt.contentL (Content.dataLine (DataPayload.ojson
          ⟨some MESSAGE_END_EVT, none, none, none, none, none, none, none⟩))),
       (t6, LineEvt.blankL)] = strip a ++ strip b := by
  intro nd od t1 t2 t3 t4 t5 t6 a b h1nd h1 h2 h3 h4 h5 h6 hba hbb hlen
  have ha : strip a ≠ [] := looksBad_false_strip_ne hba
  have hb : strip b ≠ [] := looksBad_false_strip_ne hbb
  show aggLoop nd od initSt _ = strip a ++ strip b
  rw [aggLoop_cons_inl (stepLine_content_nd (not_lt.mpr h1) (not_lt.mpr h1nd))]
  simp only [addBlock, initSt, List.nil_append]
  rw [aggLoop_cons_inl (stepLine_msg_block (not_lt.mpr h2) hba)]
  rw [aggLoop_cons_inl (stepLine_content_got (not_lt.mpr h3) rfl)]
  simp only [addBlock, List.nil_append]
  rw [aggLoop_cons_inl (stepLine_msg_block (not_lt.mpr h4) hbb)]
  rw [aggLoop_cons_inl (stepLine_content_got (not_lt.mpr h5) rfl)]
  simp only [addBlock, List.nil_append]
  rw [aggLoop_cons_inr (stepLine_end_block (not_lt.mpr h6))]
  simp only [finishAnswer]
  have hflat : ([strip a] ++ [strip b] : List Str).flatten = strip a ++ strip b := by simp
  rw [hflat, strip_append_strip ha hb]
  have hne2 : strip a ++ strip b ≠ [] := fun hh => ha (List.append_eq_nil.mp hh).1
  have e1 : (if strip a ++ strip b = [] ∧ ([] : Str) ≠ [] then ([] : Str)
      else strip a ++ strip b) = strip a ++ strip b := if_neg (fun g => g.2 rfl)
  rw [e1, if_neg hne2]
  rw [truncate_of_le (by rw [strip_append_strip ha hb, List.length_append]; exact hlen)]
  exact strip_append_strip ha hb

end LineDify

namespace LineDify

/-- C2 witness: the stream agent_message:"A", agent_message:"B",
message_end (within both deadlines) aggregates to exactly "AB". -/
theorem c2_tokens_in_arrival_order_witness :
    dify_call_agent_streaming 10 100
      [(1, LineEvt.contentL (Content.dataLine (DataPayload.ojson
          ⟨some AGENT_MESSAGE_EVT, none, none, some ("A".toList), none, none, none, none⟩))),
       (2, LineEvt.blankL),
       (3, LineEvt.contentL (Content.dataLine (DataPayload.ojson
          ⟨some AGENT_MESSAGE_EVT, none, none, some ("B".toList), none, none, none, none⟩))),
       (4, LineEvt.blankL),
       (5, LineEvt.contentL (Content.dataLine (DataPayload.ojson
          ⟨some MESSAGE_END_EVT, none, none, none, none, none, none, none⟩))),
       (6, LineEvt.blankL)] = "AB".toList :=
  (c2_tokens_in_arrival_order 10 100 1 2 3 4 5 6 ("A".toList) ("B".toList)
    (by decide) (by decide) (by decide) (by decide) (by decide) (by decide) (by decide)
    (by decide) (by decide) (by decide)).trans (by decide)

end LineDify
namespace LineDify

lemma truncate_max_ne {text : Str} (h : strip text ≠ []) :
    _truncate_for_line text LINE_MAX_CHARS ≠ [] := by
  intro hh
  exact strip_truncate_ne h (by decide : TRUNC_SUFFIX.length < LINE_MAX_CHARS)
    (by rw [hh]; rfl)

lemma line_reply_eq {tok text : Str} (htok : tok ≠ []) :
    line_reply true tok text = [Send.reply tok (_truncate_for_line text LINE_MAX_CHARS)] := by
  simp [line_reply, htok]

lemma line_push_eq {to_id text : Str} (hto : to_id ≠ []) :
    line_push true to_id text = [Send.push to_id (_truncate_for_line text LINE_MAX_CHARS)] := by
  simp [line_push, hto]

/-- C8 counterexample: an inbound text-message event with non-empty text
but no reply token and no derivable push target produces zero outbound
send attempts, in reply_once mode as well as in the default
acknowledge-then-push mode — refuting the claim that every qualifying
message yields at least one outbound attempt. -/
theorem c8_counterexample_no_reply_token :
    strip ("hi".toList) ≠ [] ∧
    handle_line_event REPLY_ONCE_MODE true
      ⟨MESSAGE_T, TEXT_T, "hi".toList, [], none, none, none⟩ ("an answer".toList) = [] ∧
    handle_line_event ("ack_push".toList) true
      ⟨MESSAGE_T, TEXT_T, "hi".toList, [], none, none, none⟩ ("an answer".toList) = [] := by
  refine ⟨by decide, by decide, by decide⟩

/-- C8 (amended): for every inbound event that passes signature
verification and carries a qualifying non-empty text message, the
dispatch produces at least one outbound send attempt with non-empty
text, provided the event carries a non-empty reply token (in reply_once
mode) or a non-empty reply token or derivable push target (in
acknowledge-then-push mode) and the channel access token is configured;
the attempted text is non-empty on every path because the aggregated
answer always strips to a non-empty string and empty answers are
replaced by the busy text. -/
theorem c8_outbound_attempt_amended :
    ∀ (mode : Str) (ev : LineMsgEvent) (nd od : Nat) (input : List (Nat × LineEvt)),
    ev.etype = MESSAGE_T → ev.mtype = TEXT_T → strip ev.mtext ≠ [] →
    ((mode = REPLY_ONCE_MODE ∧ ev.replyToken ≠ []) ∨
     (mode ≠ REPLY_ONCE_MODE ∧ (ev.replyToken ≠ [] ∨
        _extract_push_to_id ev.userId ev.groupId ev.roomId ≠ []))) →
    (handle_line_event mode true ev (dify_call_agent_streaming nd od input) ≠ [] ∧
     (handle_line_event mode true ev (dify_call_agent_streaming nd od input)).all
        (fun s => !(sendText s).isEmpty) = true) := by
  intro mode ev nd od input h1 h2 h3 hcase
  have hstr : strip (dify_call_agent_streaming nd od input) ≠ [] := dify_strip_ne nd od input
  have hansne : dify_call_agent_streaming nd od input ≠ [] := by
    intro hh; rw [hh] at hstr; exact hstr rfl
  have hpyor : pyOr (dify_call_agent_streaming nd od input) BUSY_TEXT =
      dify_call_agent_streaming nd od input := by
    simp [pyOr, hansne]
  have htr : _truncate_for_line (dify_call_agent_streaming nd od input) LINE_MAX_CHARS ≠ [] :=
    truncate_max_ne hstr
  have hack : _truncate_for_line ACK_TEXT LINE_MAX_CHARS ≠ [] := by decide
  simp only [handle_line_event, if_neg (not_not_intro h1), if_neg (not_not_intro h2),
    if_neg (fun g => h3 g)]
  rcases hcase with ⟨hm, htok⟩ | ⟨hm, hor⟩
  · rw [if_pos hm, if_pos htok]
    simp only [background_replyonce, hpyor, line_reply_eq htok]
    constructor
    · simp
    · simp only [List.all_cons, List.all_nil, sendText, Bool.and_true]
      simp [List.isEmpty_iff, htr]
  · rw [if_neg hm]
    constructor
    · rcases Decidable.em (ev.replyToken ≠ []) with htk | htk
      · rw [if_pos htk, line_reply_eq htk]
        simp
      · have hto : _extract_push_to_id ev.userId ev.groupId ev.roomId ≠ [] := by
          rcases hor with h | h
          · exact absurd h htk
          · exact h
        rw [if_neg htk, if_pos hto]
        simp only [background_ackpush, hpyor, line_push_eq hto]
        simp
    · have hall1 : ∀ x ∈ (if ev.replyToken ≠ [] then line_reply true ev.replyToken ACK_TEXT
          else []), (!(sendText x).isEmpty) = true := by
        intro x hx
        rcases Decidable.em (ev.replyToken ≠ []) with htk | htk
        · rw [if_pos htk, line_reply_eq htk] at hx
          simp only [List.mem_singleton] at hx
          subst hx
          simp [sendText, List.isEmpty_iff, hack]
        · rw [if_neg htk] at hx
          simp at hx
      have hall2 : ∀ x ∈ (if _extract_push_to_id ev.userId ev.groupId ev.roomId ≠ [] then
          background_ackpush true (_extract_push_to_id ev.userId ev.groupId ev.roomId)
            (dify_call_agent_streaming nd od input)
          else []), (!(sendText x).isEmpty) = true := by
        intro x hx
        rcases Decidable.em (_extract_push_to_id ev.userId ev.groupId ev.roomId ≠ []) with hto | hto
        · rw [if_pos hto] at hx
          simp only [background_ackpush, hpyor, line_push_eq hto, List.mem_singleton] at hx
          subst hx
          simp [sendText, List.isEmpty_iff, htr]
        · rw [if_neg hto] at hx
          simp at hx
      rw [List.all_eq_true]
      intro x hx
      rcases List.mem_append.mp hx with hx1 | hx2
      · exact hall1 x hx1
      · exact hall2 x hx2

end LineDify

namespace LineDify

/-- C8 witness: the amended dispatch guarantee evaluated on a concrete
qualifying message with a reply token in reply_once mode, against the
aggregation of an empty stream. -/
theorem c8_outbound_attempt_amended_witness :
    handle_line_event REPLY_ONCE_MODE true
      ⟨MESSAGE_T, TEXT_T, "hi".toList, "rt".toList, none, none, none⟩
      (dify_call_agent_streaming 1 1 []) ≠ [] ∧
    (handle_line_event REPLY_ONCE_MODE true
      ⟨MESSAGE_T, TEXT_T, "hi".toList, "rt".toList, none, none, none⟩
      (dify_call_agent_streaming 1 1 [])).all (fun s => !(sendText s).isEmpty) = true :=
  c8_outbound_attempt_amended REPLY_ONCE_MODE
    ⟨MESSAGE_T, TEXT_T, "hi".toList, "rt".toList, none, none, none⟩ 1 1 []
    rfl rfl (by decide) (Or.inl (And.intro rfl (by decide)))

end LineDify
